import Mathlib

set_option maxHeartbeats 1000000

/-
Shallow embedding of `winstartupreg.go` (package `winstartupreg`,
github.com/nishansanjuka/winstartupreg): CRUD operations over four fixed
Windows startup registry keys.  The registry and the filesystem are the
external collaborators (spec section 6); they are modelled by an explicit
registry state together with an environment of injected OS-level outcomes.
-/

/-- Root registry hive, as in `golang.org/x/sys/windows/registry`: the two
predefined root keys used by the package. -/
inductive RegRoot where
  | CURRENT_USER
  | LOCAL_MACHINE
deriving DecidableEq

/-- A registry key location: root hive plus sub-path string. -/
abbrev KeyId := RegRoot × String

/-- Access mode passed to `registry.OpenKey`. -/
inductive Access where
  | ALL_ACCESS
  | QUERY_VALUE
deriving DecidableEq

/-- Data stored in a registry value: a string (REG_SZ, as written by
`SetStringValue`), or a payload of some non-string type, on which
`GetStringValue` fails with an unexpected-type error. -/
inductive RegData where
  | str (s : String)
  | other (tag : Nat)
deriving DecidableEq

/-- The registry state: for each key, the list of (value name, data) pairs in
enumeration order.  Value names under one key are unique in the Windows
registry; the operations below preserve that invariant. -/
structure Registry where
  values : KeyId → List (String × RegData)

/-- Outcome of `os.Stat`: success, a not-exist error (`os.IsNotExist` returns
true), or any other error (`os.IsNotExist` returns false). -/
inductive StatResult where
  | ok
  | errNotExist
  | errOther (msg : String)
deriving DecidableEq

/-- Environment of OS-level outcomes for the external collaborators of spec
section 6: injected failures of open-key, set-string-value, delete-value and
enumerate-value-names (each `some msg` makes the call fail with that error
text), plus the behavior of `filepath.Abs` and `os.Stat`. -/
structure Env where
  openKeyErr : KeyId → Access → Option String
  setValueErr : KeyId → String → Option String
  deleteValueErr : KeyId → String → Option String
  readNamesErr : KeyId → Option String
  abs : String → Except String String
  stat : String → StatResult

/-- The error values the Go functions construct, one constructor per
`fmt.Errorf` site in `winstartupreg.go` (spec section 7 taxonomy). -/
inductive GoError where
  | validationError
  | pathError (msg : String)
  | notFoundExec (path : String)
  | accessError (msg : String)
  | writeError (msg : String)
  | notFoundValue (name : String) (keyPath : String)
  | deleteError (msg : String)
  | readError (msg : String)
  | aggregateNotFound (name : String) (lastErr : Option GoError)

/-- `StartupEntry` of `winstartupreg.go`: a name and a command path. -/
structure StartupEntry where
  Name : String
  Command : String
deriving DecidableEq

/-- `StartupRegistryType` of `winstartupreg.go` is a Go `int`. -/
abbrev StartupRegistryType := Int

def CurrentUserRun : StartupRegistryType := 0

def CurrentUserRunOnce : StartupRegistryType := 1

def AllUsersRun : StartupRegistryType := 2

def AllUsersRunOnce : StartupRegistryType := 3

/-- `getRegistryPath` of `winstartupreg.go`: returns the registry sub-path and
root key for a given startup type; unrecognized values take the default
branch. -/
def getRegistryPath (registryType : StartupRegistryType) : String × RegRoot :=
  if registryType = CurrentUserRun then
    ("Software\\Microsoft\\Windows\\CurrentVersion\\Run", RegRoot.CURRENT_USER)
  else if registryType = CurrentUserRunOnce then
    ("Software\\Microsoft\\Windows\\CurrentVersion\\RunOnce", RegRoot.CURRENT_USER)
  else if registryType = AllUsersRun then
    ("SOFTWARE\\Microsoft\\Windows\\CurrentVersion\\Run", RegRoot.LOCAL_MACHINE)
  else if registryType = AllUsersRunOnce then
    ("SOFTWARE\\Microsoft\\Windows\\CurrentVersion\\RunOnce", RegRoot.LOCAL_MACHINE)
  else
    ("Software\\Microsoft\\Windows\\CurrentVersion\\Run", RegRoot.CURRENT_USER)

/-- The key a startup type resolves to, as a `KeyId`. -/
def keyOf (registryType : StartupRegistryType) : KeyId :=
  ((getRegistryPath registryType).2, (getRegistryPath registryType).1)

/-- Association-list lookup (models indexing a Go map and registry value
lookup by name). -/
def assocLookup {α β : Type} [DecidableEq α] : List (α × β) → α → Option β
  | [], _ => none
  | (k, v) :: t, k2 => if k = k2 then some v else assocLookup t k2

/-- Association-list insert-or-overwrite (models `m[k] = v` on a Go map and
`SetStringValue` overwriting an existing registry value in place). -/
def mapInsert {α β : Type} [DecidableEq α] : List (α × β) → α → β → List (α × β)
  | [], k, v => [(k, v)]
  | (k2, v2) :: t, k, v => if k2 = k then (k, v) :: t else (k2, v2) :: mapInsert t k v

/-- Remove every binding of a name from a value list (models `DeleteValue`;
with unique names it removes exactly the one named value). -/
def deleteAll : List (String × RegData) → String → List (String × RegData)
  | [], _ => []
  | (k, v) :: t, n => if k = n then deleteAll t n else (k, v) :: deleteAll t n

/-- Check whether `needle` occurs as a contiguous run in `hay`. -/
def strContainsAux (needle : List Char) : List Char → Bool
  | [] => needle.isEmpty
  | c :: rest => needle.isPrefixOf (c :: rest) || strContainsAux needle rest

/-- `strings.Contains` of Go. -/
def stringsContains (s substr : String) : Bool :=
  strContainsAux substr.toList s.toList

/-- The Windows error text for a missing registry value, matched by
`RemoveStartupEntry`. -/
def notFoundText : String := "The system cannot find the file specified"

/-- `SetStringValue` of the registry layer: either an injected failure, or it
stores `val` as a string value under `name`, overwriting in place. -/
def setStringValue (env : Env) (reg : Registry) (k : KeyId) (name val : String) :
    Option String × Registry :=
  match env.setValueErr k name with
  | some msg => (some msg, reg)
  | none =>
      (none, ⟨fun k2 => if k2 = k then mapInsert (reg.values k) name (RegData.str val)
                        else reg.values k2⟩)

/-- `DeleteValue` of the registry layer: an injected failure, or deletion of
the named value when present, or the Windows not-found error text when the
value is absent. -/
def deleteValue (env : Env) (reg : Registry) (k : KeyId) (name : String) :
    Option String × Registry :=
  match env.deleteValueErr k name with
  | some msg => (some msg, reg)
  | none =>
      match assocLookup (reg.values k) name with
      | some _ =>
          (none, ⟨fun k2 => if k2 = k then deleteAll (reg.values k) name else reg.values k2⟩)
      | none => (some ("The system cannot find the file specified."), reg)

/-- `GetStringValue` of the registry layer: the stored string, an
unexpected-type error for a non-string value, or a not-found error for an
absent value. -/
def getStringValue (reg : Registry) (k : KeyId) (name : String) : Except String String :=
  match assocLookup (reg.values k) name with
  | some (RegData.str s) => Except.ok s
  | some (RegData.other _) => Except.error ("unexpected value type")
  | none => Except.error ("The system cannot find the file specified.")

/-- `AddStartupEntry` of `winstartupreg.go`: validate the name, normalize the
command with `filepath.Abs`, check existence with `os.Stat`/`os.IsNotExist`,
open the key with ALL_ACCESS and set the string value.  Returns the Go error
result and the registry state after the call. -/
def AddStartupEntry (env : Env) (reg : Registry) (entry : StartupEntry)
    (registryType : StartupRegistryType) : Option GoError × Registry :=
  if entry.Name = "" then (some GoError.validationError, reg)
  else
    match env.abs entry.Command with
    | Except.error msg => (some (GoError.pathError msg), reg)
    | Except.ok fullPath =>
        if env.stat fullPath = StatResult.errNotExist then
          (some (GoError.notFoundExec fullPath), reg)
        else
          let keyPath := (getRegistryPath registryType).1
          let rootKey := (getRegistryPath registryType).2
          match env.openKeyErr (rootKey, keyPath) Access.ALL_ACCESS with
          | some msg => (some (GoError.accessError msg), reg)
          | none =>
              match setStringValue env reg (rootKey, keyPath) entry.Name fullPath with
              | (some msg, reg2) => (some (GoError.writeError msg), reg2)
              | (none, reg2) => (none, reg2)

/-- `RemoveStartupEntry` of `winstartupreg.go`: open the key with ALL_ACCESS
and delete the named value; a delete failure whose text contains the Windows
not-found message becomes a not-found error, any other delete failure a
generic delete error. -/
def RemoveStartupEntry (env : Env) (reg : Registry) (entryName : String)
    (registryType : StartupRegistryType) : Option GoError × Registry :=
  let keyPath := (getRegistryPath registryType).1
  let rootKey := (getRegistryPath registryType).2
  match env.openKeyErr (rootKey, keyPath) Access.ALL_ACCESS with
  | some msg => (some (GoError.accessError msg), reg)
  | none =>
      match deleteValue env reg (rootKey, keyPath) entryName with
      | (some msg, reg2) =>
          if stringsContains msg notFoundText then
            (some (GoError.notFoundValue entryName keyPath), reg2)
          else
            (some (GoError.deleteError msg), reg2)
      | (none, reg2) => (none, reg2)

/-- `SafeRemoveStartupEntry` of `winstartupreg.go`: try removal in the four
scopes in order, remembering the last error and whether any removal
succeeded; fail with the aggregate error wrapping the last per-scope error
only when no removal succeeded. -/
def SafeRemoveStartupEntry (env : Env) (reg : Registry) (entryName : String) :
    Option GoError × Registry :=
  let registryTypes : List StartupRegistryType :=
    [CurrentUserRun, CurrentUserRunOnce, AllUsersRun, AllUsersRunOnce]
  let result := registryTypes.foldl
    (fun acc registryType =>
      match RemoveStartupEntry env acc.2.2 entryName registryType with
      | (none, reg2) => (acc.1, true, reg2)
      | (some e, reg2) => (some e, acc.2.1, reg2))
    ((none : Option GoError), (false : Bool), reg)
  if !result.2.1 then
    (some (GoError.aggregateNotFound entryName result.1), result.2.2)
  else
    (none, result.2.2)

/-- The value-reading loop of `ListStartupEntries`: fold over the enumerated
value names, inserting each name whose `GetStringValue` succeeds and skipping
each name whose read fails. -/
def buildEntries (reg : Registry) (k : KeyId) (names : List String)
    (acc : List (String × String)) : List (String × String) :=
  names.foldl
    (fun entries name =>
      match getStringValue reg k name with
      | Except.ok value => mapInsert entries name value
      | Except.error _ => entries)
    acc

/-- `ListStartupEntries` of `winstartupreg.go`: open the key with QUERY_VALUE,
enumerate the value names with `ReadValueNames(0)`, and read each as a
string, skipping values whose read fails. -/
def ListStartupEntries (env : Env) (reg : Registry)
    (registryType : StartupRegistryType) : Except GoError (List (String × String)) :=
  let keyPath := (getRegistryPath registryType).1
  let rootKey := (getRegistryPath registryType).2
  match env.openKeyErr (rootKey, keyPath) Access.QUERY_VALUE with
  | some msg => Except.error (GoError.accessError msg)
  | none =>
      match env.readNamesErr (rootKey, keyPath) with
      | some msg => Except.error (GoError.readError msg)
      | none =>
          let valueNames := (reg.values (rootKey, keyPath)).map Prod.fst
          Except.ok (buildEntries reg (rootKey, keyPath) valueNames [])

/-- The per-scope loop of `ListAllStartupEntries`: insert a scope only when
its listing succeeded with a nonempty map. -/
def buildAll (env : Env) (reg : Registry) (ts : List StartupRegistryType)
    (acc : List (StartupRegistryType × List (String × String))) :
    List (StartupRegistryType × List (String × String)) :=
  ts.foldl
    (fun allEntries registryType =>
      match ListStartupEntries env reg registryType with
      | Except.ok entries =>
          if entries.length > 0 then mapInsert allEntries registryType entries
          else allEntries
      | Except.error _ => allEntries)
    acc

/-- `ListAllStartupEntries` of `winstartupreg.go`: list each of the four
scopes, keeping a scope only when its listing succeeded with at least one
entry; always returns a nil error. -/
def ListAllStartupEntries (env : Env) (reg : Registry) :
    List (StartupRegistryType × List (String × String)) × Option GoError :=
  let registryTypes : List StartupRegistryType :=
    [CurrentUserRun, CurrentUserRunOnce, AllUsersRun, AllUsersRunOnce]
  (buildAll env reg registryTypes [], none)

/-- An environment in which every OS call succeeds, `filepath.Abs` is the
identity and every stat succeeds. -/
def envNoErr : Env where
  openKeyErr := fun _ _ => none
  setValueErr := fun _ _ => none
  deleteValueErr := fun _ _ => none
  readNamesErr := fun _ => none
  abs := fun s => Except.ok s
  stat := fun _ => StatResult.ok

/-- The empty registry. -/
def regEmpty : Registry := ⟨fun _ => []⟩

/-- An environment whose `filepath.Abs` prefixes a fixed directory and whose
stats all report not-exist. -/
def envStatMissing : Env :=
  { envNoErr with
      abs := fun s => Except.ok ("C:\\abs\\" ++ s)
      stat := fun _ => StatResult.errNotExist }

/-- An environment whose stats all fail with a non-not-exist error, such as a
permission error. -/
def envStatOther : Env :=
  { envNoErr with
      abs := fun s => Except.ok ("C:\\abs\\" ++ s)
      stat := fun _ => StatResult.errOther ("permission denied") }

/-- An environment whose delete-value calls all fail with an access-denied
error text. -/
def envDelDenied : Env :=
  { envNoErr with deleteValueErr := fun _ _ => some ("Access is denied.") }

/-- An environment whose `filepath.Abs` prefixes a fixed directory and whose
stats succeed. -/
def envAbsOk : Env :=
  { envNoErr with abs := fun s => Except.ok ("C:\\abs\\" ++ s) }

/-- The CurrentUserRun key. -/
def keyCU : KeyId :=
  (RegRoot.CURRENT_USER, "Software\\Microsoft\\Windows\\CurrentVersion\\Run")

/-- A registry holding, under the CurrentUserRun key, one string value and one
non-string value. -/
def regMix : Registry :=
  ⟨fun k => if k = keyCU then [("A", RegData.str ("cmdA")), ("B", RegData.other 0)] else []⟩

/-! Helper lemmas about the association-list operations. -/

theorem assocLookup_mapInsert_self {α β : Type} [DecidableEq α]
    (m : List (α × β)) (k : α) (v : β) :
    assocLookup (mapInsert m k v) k = some v := by
  induction m with
  | nil => simp [mapInsert, assocLookup]
  | cons p t ih =>
    obtain ⟨k2, v2⟩ := p
    by_cases h : k2 = k
    · simp [mapInsert, h, assocLookup]
    · simp [mapInsert, h, assocLookup, ih]

theorem assocLookup_mapInsert_other {α β : Type} [DecidableEq α]
    (m : List (α × β)) (k k2 : α) (v : β) (h : k ≠ k2) :
    assocLookup (mapInsert m k v) k2 = assocLookup m k2 := by
  induction m with
  | nil => simp [mapInsert, assocLookup, h]
  | cons p t ih =>
    obtain ⟨a, b⟩ := p
    by_cases ha : a = k
    · subst ha
      simp [mapInsert, assocLookup, h]
    · simp [mapInsert, ha, assocLookup, ih]

theorem mem_map_fst_mapInsert {α β : Type} [DecidableEq α]
    (m : List (α × β)) (k : α) (v : β) :
    k ∈ (mapInsert m k v).map Prod.fst := by
  induction m with
  | nil => simp [mapInsert]
  | cons p t ih =>
    obtain ⟨a, b⟩ := p
    by_cases ha : a = k
    · simp [mapInsert, ha]
    · simp [mapInsert, ha]
      right
      simpa using ih

theorem assocLookup_deleteAll_self (m : List (String × RegData)) (n : String) :
    assocLookup (deleteAll m n) n = none := by
  induction m with
  | nil => simp [deleteAll, assocLookup]
  | cons p t ih =>
    obtain ⟨a, b⟩ := p
    by_cases ha : a = n
    · simp [deleteAll, ha, ih]
    · simp [deleteAll, ha, assocLookup, ih]

theorem assocLookup_deleteAll_other (m : List (String × RegData)) (n n2 : String)
    (h : n2 ≠ n) :
    assocLookup (deleteAll m n) n2 = assocLookup m n2 := by
  induction m with
  | nil => simp [deleteAll]
  | cons p t ih =>
    obtain ⟨a, b⟩ := p
    by_cases ha : a = n
    · subst ha
      have hne : ¬ a = n2 := fun hh => h hh.symm
      simp [deleteAll, assocLookup, hne, ih]
    · simp [deleteAll, ha, assocLookup, ih]

/-- C5: the scope resolver is a pure total function: each of the four enum
values resolves to exactly one fixed (sub-path, root key) pair, and every
value outside the four defined enum values resolves to the same pair as
CurrentUserRun. -/
theorem getRegistryPath_spec :
    getRegistryPath CurrentUserRun =
      ("Software\\Microsoft\\Windows\\CurrentVersion\\Run", RegRoot.CURRENT_USER)
    ∧ getRegistryPath CurrentUserRunOnce =
      ("Software\\Microsoft\\Windows\\CurrentVersion\\RunOnce", RegRoot.CURRENT_USER)
    ∧ getRegistryPath AllUsersRun =
      ("SOFTWARE\\Microsoft\\Windows\\CurrentVersion\\Run", RegRoot.LOCAL_MACHINE)
    ∧ getRegistryPath AllUsersRunOnce =
      ("SOFTWARE\\Microsoft\\Windows\\CurrentVersion\\RunOnce", RegRoot.LOCAL_MACHINE)
    ∧ ∀ t : StartupRegistryType, t ≠ CurrentUserRun → t ≠ CurrentUserRunOnce →
        t ≠ AllUsersRun → t ≠ AllUsersRunOnce →
        getRegistryPath t = getRegistryPath CurrentUserRun := by
  refine ⟨rfl, rfl, rfl, rfl, fun t h1 h2 h3 h4 => ?_⟩
  simp [getRegistryPath, h1, h2, h3, h4]

/-- C5 witness: the unrecognized value 7 resolves to the CurrentUserRun pair. -/
theorem getRegistryPath_spec_witness :
    getRegistryPath 7 = getRegistryPath CurrentUserRun :=
  getRegistryPath_spec.2.2.2.2 7 (by decide) (by decide) (by decide) (by decide)

/-- C3: for every environment, registry state, scope and entry with an empty
name, AddStartupEntry fails with the validation error and leaves the registry
state unchanged. -/
theorem addStartupEntry_emptyName (env : Env) (reg : Registry) (entry : StartupEntry)
    (registryType : StartupRegistryType) (h : entry.Name = "") :
    AddStartupEntry env reg entry registryType = (some GoError.validationError, reg) := by
  simp [AddStartupEntry, h]

/-- C3 witness: a concrete empty-named entry is rejected with the validation
error and the empty registry is unchanged. -/
theorem addStartupEntry_emptyName_witness :
    AddStartupEntry envNoErr regEmpty ⟨"", "cmd.exe"⟩ CurrentUserRun =
      (some GoError.validationError, regEmpty) :=
  addStartupEntry_emptyName envNoErr regEmpty ⟨"", "cmd.exe"⟩ CurrentUserRun rfl

/-- C4 counterexample: an entry with an empty name and a command whose
normalized absolute path does not exist is rejected with the validation
error, not with the executable-not-found error, because the name check runs
first. -/
theorem addStartupEntry_missingExec_counterexample :
    envStatMissing.abs "bad.exe" = Except.ok ("C:\\abs\\bad.exe")
    ∧ envStatMissing.stat ("C:\\abs\\bad.exe") = StatResult.errNotExist
    ∧ (AddStartupEntry envStatMissing regEmpty ⟨"", "bad.exe"⟩ CurrentUserRun).1 =
        some GoError.validationError
    ∧ (AddStartupEntry envStatMissing regEmpty ⟨"", "bad.exe"⟩ CurrentUserRun).1 ≠
        some (GoError.notFoundExec ("C:\\abs\\bad.exe")) := by
  refine ⟨rfl, rfl, rfl, fun h => ?_⟩
  have h2 : GoError.validationError = GoError.notFoundExec ("C:\\abs\\bad.exe") :=
    Option.some.inj h
  exact GoError.noConfusion h2

/-- C4 (amended): for every scope and every entry with a non-empty name whose
command, after normalization to an absolute path, does not exist on the
filesystem, AddStartupEntry fails with the executable-not-found error and
leaves the registry state unchanged. -/
theorem addStartupEntry_missingExec (env : Env) (reg : Registry) (entry : StartupEntry)
    (registryType : StartupRegistryType) (fullPath : String)
    (hname : entry.Name ≠ "")
    (habs : env.abs entry.Command = Except.ok fullPath)
    (hstat : env.stat fullPath = StatResult.errNotExist) :
    AddStartupEntry env reg entry registryType =
      (some (GoError.notFoundExec fullPath), reg) := by
  simp [AddStartupEntry, hname, habs, hstat]

/-- C4 witness: a concrete non-empty-named entry with a missing executable is
rejected with the executable-not-found error. -/
theorem addStartupEntry_missingExec_witness :
    AddStartupEntry envStatMissing regEmpty ⟨"App", "bad.exe"⟩ CurrentUserRun =
      (some (GoError.notFoundExec ("C:\\abs\\bad.exe")), regEmpty) :=
  addStartupEntry_missingExec envStatMissing regEmpty ⟨"App", "bad.exe"⟩ CurrentUserRun
    ("C:\\abs\\bad.exe") (by decide) rfl rfl

/-- C10: when the stat of the normalized command path fails with an error that
is not a not-exist error, AddStartupEntry does not return a not-found error:
with the key openable and the value settable it proceeds to write the value
as if the path existed, succeeding with the absolute path stored under the
entry name. -/
theorem addStartupEntry_statOtherError (env : Env) (reg : Registry)
    (entry : StartupEntry) (registryType : StartupRegistryType)
    (fullPath msg : String)
    (hname : entry.Name ≠ "")
    (habs : env.abs entry.Command = Except.ok fullPath)
    (hstat : env.stat fullPath = StatResult.errOther msg)
    (hopen : env.openKeyErr (keyOf registryType) Access.ALL_ACCESS = none)
    (hset : env.setValueErr (keyOf registryType) entry.Name = none) :
    (AddStartupEntry env reg entry registryType).1 = none
    ∧ assocLookup
        (((AddStartupEntry env reg entry registryType).2).values (keyOf registryType))
        entry.Name = some (RegData.str fullPath) := by
  simp only [keyOf] at hopen hset
  simp [AddStartupEntry, setStringValue, keyOf, hname, habs, hstat, hopen, hset,
    assocLookup_mapInsert_self]

/-- C10 witness: with every stat failing with a permission error, a concrete
add succeeds and stores the normalized path. -/
theorem addStartupEntry_statOtherError_witness :
    (AddStartupEntry envStatOther regEmpty ⟨"App", "run.exe"⟩ CurrentUserRun).1 = none
    ∧ assocLookup
        (((AddStartupEntry envStatOther regEmpty ⟨"App", "run.exe"⟩ CurrentUserRun).2).values
          (keyOf CurrentUserRun))
        "App" = some (RegData.str ("C:\\abs\\run.exe")) :=
  addStartupEntry_statOtherError envStatOther regEmpty ⟨"App", "run.exe"⟩ CurrentUserRun
    ("C:\\abs\\run.exe") ("permission denied") (by decide) rfl rfl rfl rfl

theorem containsNotFound :
    stringsContains ("The system cannot find the file specified.") notFoundText = true := by
  decide

/-- C6: with the key openable, a delete failure whose error text contains the
Windows not-found message makes RemoveStartupEntry return the not-found
error; a delete failure with any other text yields the distinct generic
delete-failure error; and deleting an absent value fails with the not-found
error, because the underlying failure text carries the matched message. -/
theorem removeStartupEntry_notFound_cases (env : Env) (reg : Registry)
    (entryName : String) (registryType : StartupRegistryType)
    (hopen : env.openKeyErr (keyOf registryType) Access.ALL_ACCESS = none) :
    (∀ msg, env.deleteValueErr (keyOf registryType) entryName = some msg →
      stringsContains msg notFoundText = true →
      RemoveStartupEntry env reg entryName registryType =
        (some (GoError.notFoundValue entryName (getRegistryPath registryType).1), reg))
    ∧ (∀ msg, env.deleteValueErr (keyOf registryType) entryName = some msg →
      stringsContains msg notFoundText = false →
      RemoveStartupEntry env reg entryName registryType =
        (some (GoError.deleteError msg), reg))
    ∧ (env.deleteValueErr (keyOf registryType) entryName = none →
      assocLookup (reg.values (keyOf registryType)) entryName = none →
      RemoveStartupEntry env reg entryName registryType =
        (some (GoError.notFoundValue entryName (getRegistryPath registryType).1), reg)) := by
  simp only [keyOf] at hopen
  refine ⟨fun msg hdel hc => ?_, fun msg hdel hc => ?_, fun hdel habsent => ?_⟩
  · simp only [keyOf] at hdel
    simp [RemoveStartupEntry, deleteValue, hopen, hdel, hc]
  · simp only [keyOf] at hdel
    simp [RemoveStartupEntry, deleteValue, hopen, hdel, hc]
  · simp only [keyOf] at hdel habsent
    simp [RemoveStartupEntry, deleteValue, hopen, hdel, habsent, containsNotFound]

/-- C6 witness: a delete failure with an access-denied text, which does not
contain the not-found message, yields the generic delete-failure error. -/
theorem removeStartupEntry_notFound_cases_witness :
    RemoveStartupEntry envDelDenied regEmpty "X" CurrentUserRun =
      (some (GoError.deleteError ("Access is denied.")), regEmpty) :=
  (removeStartupEntry_notFound_cases envDelDenied regEmpty "X" CurrentUserRun rfl).2.1
    ("Access is denied.") rfl (by decide)

/-- C1: SafeRemoveStartupEntry attempts removal in all four scopes in order
and returns no error exactly when at least one of the four sequential
removals succeeded; when all four fail, it returns the aggregate not-found
error wrapping the last per-scope error, with the registry left in the state
after the fourth attempt. -/
theorem safeRemoveStartupEntry_spec (env : Env) (reg : Registry) (entryName : String)
    (o1 o2 o3 o4 : Option GoError) (r1 r2 r3 r4 : Registry)
    (h1 : RemoveStartupEntry env reg entryName CurrentUserRun = (o1, r1))
    (h2 : RemoveStartupEntry env r1 entryName CurrentUserRunOnce = (o2, r2))
    (h3 : RemoveStartupEntry env r2 entryName AllUsersRun = (o3, r3))
    (h4 : RemoveStartupEntry env r3 entryName AllUsersRunOnce = (o4, r4)) :
    ((o1 = none ∨ o2 = none ∨ o3 = none ∨ o4 = none) ↔
      (SafeRemoveStartupEntry env reg entryName).1 = none)
    ∧ (o1 ≠ none → o2 ≠ none → o3 ≠ none → o4 ≠ none →
      SafeRemoveStartupEntry env reg entryName =
        (some (GoError.aggregateNotFound entryName o4), r4)) := by
  rcases o1 with _ | e1 <;> rcases o2 with _ | e2 <;> rcases o3 with _ | e3 <;>
    rcases o4 with _ | e4 <;>
    simp_all [SafeRemoveStartupEntry]

/-- C1 witness: on an empty registry with no injected failures, every scope
reports not-found and the aggregate error wraps the last scope's error. -/
theorem safeRemoveStartupEntry_spec_witness :
    SafeRemoveStartupEntry envNoErr regEmpty "X" =
      (some (GoError.aggregateNotFound "X"
        (some (GoError.notFoundValue "X"
          ("SOFTWARE\\Microsoft\\Windows\\CurrentVersion\\RunOnce")))), regEmpty) :=
  (safeRemoveStartupEntry_spec envNoErr regEmpty "X"
      (some (GoError.notFoundValue "X" ("Software\\Microsoft\\Windows\\CurrentVersion\\Run")))
      (some (GoError.notFoundValue "X" ("Software\\Microsoft\\Windows\\CurrentVersion\\RunOnce")))
      (some (GoError.notFoundValue "X" ("SOFTWARE\\Microsoft\\Windows\\CurrentVersion\\Run")))
      (some (GoError.notFoundValue "X" ("SOFTWARE\\Microsoft\\Windows\\CurrentVersion\\RunOnce")))
      regEmpty regEmpty regEmpty regEmpty rfl rfl rfl rfl).2
    (Option.some_ne_none _) (Option.some_ne_none _) (Option.some_ne_none _)
    (Option.some_ne_none _)

theorem addStartupEntry_ok_values (env : Env) (reg : Registry) (entry : StartupEntry)
    (registryType : StartupRegistryType) (reg2 : Registry) (fullPath : String)
    (habs : env.abs entry.Command = Except.ok fullPath)
    (h : AddStartupEntry env reg entry registryType = (none, reg2)) :
    reg2.values = fun k2 =>
      if k2 = keyOf registryType then
        mapInsert (reg.values (keyOf registryType)) entry.Name (RegData.str fullPath)
      else reg.values k2 := by
  by_cases hn : entry.Name = ""
  · simp [AddStartupEntry, hn] at h
  · by_cases hs : env.stat fullPath = StatResult.errNotExist
    · simp [AddStartupEntry, hn, habs, hs] at h
    · cases ho : env.openKeyErr ((getRegistryPath registryType).2,
          (getRegistryPath registryType).1) Access.ALL_ACCESS with
      | some m => simp [AddStartupEntry, hn, habs, hs, ho] at h
      | none =>
        cases hst : env.setValueErr ((getRegistryPath registryType).2,
            (getRegistryPath registryType).1) entry.Name with
        | some m => simp [AddStartupEntry, setStringValue, hn, habs, hs, ho, hst] at h
        | none =>
          simp [AddStartupEntry, setStringValue, hn, habs, hs, ho, hst] at h
          rw [← h]
          funext k2
          simp [keyOf]

theorem removeStartupEntry_ok_values (env : Env) (reg : Registry) (entryName : String)
    (registryType : StartupRegistryType) (reg2 : Registry)
    (h : RemoveStartupEntry env reg entryName registryType = (none, reg2)) :
    reg2.values = fun k2 =>
      if k2 = keyOf registryType then deleteAll (reg.values (keyOf registryType)) entryName
      else reg.values k2 := by
  cases ho : env.openKeyErr ((getRegistryPath registryType).2,
      (getRegistryPath registryType).1) Access.ALL_ACCESS with
  | some m => simp [RemoveStartupEntry, ho] at h
  | none =>
    cases hd : env.deleteValueErr ((getRegistryPath registryType).2,
        (getRegistryPath registryType).1) entryName with
    | some m =>
      cases hc : stringsContains m notFoundText <;>
        simp [RemoveStartupEntry, deleteValue, ho, hd, hc] at h
    | none =>
      cases hl : assocLookup (reg.values ((getRegistryPath registryType).2,
          (getRegistryPath registryType).1)) entryName with
      | none => simp [RemoveStartupEntry, deleteValue, ho, hd, hl, containsNotFound] at h
      | some v =>
        simp [RemoveStartupEntry, deleteValue, ho, hd, hl] at h
        rw [← h]
        funext k2
        simp [keyOf]

theorem removeStartupEntry_err_values (env : Env) (reg : Registry) (entryName : String)
    (registryType : StartupRegistryType) (e : GoError) (reg2 : Registry)
    (h : RemoveStartupEntry env reg entryName registryType = (some e, reg2)) :
    reg2 = reg := by
  cases ho : env.openKeyErr ((getRegistryPath registryType).2,
      (getRegistryPath registryType).1) Access.ALL_ACCESS with
  | some m =>
    simp [RemoveStartupEntry, ho] at h
    exact h.2.symm
  | none =>
    cases hd : env.deleteValueErr ((getRegistryPath registryType).2,
        (getRegistryPath registryType).1) entryName with
    | some m =>
      cases hc : stringsContains m notFoundText <;>
        simp [RemoveStartupEntry, deleteValue, ho, hd, hc] at h <;>
        exact h.2.symm
    | none =>
      cases hl : assocLookup (reg.values ((getRegistryPath registryType).2,
          (getRegistryPath registryType).1)) entryName with
      | none =>
        simp [RemoveStartupEntry, deleteValue, ho, hd, hl, containsNotFound] at h
        exact h.2.symm
      | some v => simp [RemoveStartupEntry, deleteValue, ho, hd, hl] at h

/-- C9: a successful AddStartupEntry stores exactly the one value named by the
entry (the normalized path, as a string) under the target key, leaving every
other value name under that key and every other key unchanged; a successful
RemoveStartupEntry removes exactly the one named value, leaving every other
name and key unchanged; and a failed RemoveStartupEntry (in particular on an
absent value) changes nothing. -/
theorem addRemove_frame (env : Env) (reg : Registry) :
    (∀ (entry : StartupEntry) (registryType : StartupRegistryType) (reg2 : Registry)
        (fullPath : String),
      env.abs entry.Command = Except.ok fullPath →
      AddStartupEntry env reg entry registryType = (none, reg2) →
      assocLookup (reg2.values (keyOf registryType)) entry.Name =
          some (RegData.str fullPath)
        ∧ (∀ n, n ≠ entry.Name →
            assocLookup (reg2.values (keyOf registryType)) n =
              assocLookup (reg.values (keyOf registryType)) n)
        ∧ (∀ k, k ≠ keyOf registryType → reg2.values k = reg.values k))
    ∧ (∀ (entryName : String) (registryType : StartupRegistryType) (reg2 : Registry),
      RemoveStartupEntry env reg entryName registryType = (none, reg2) →
      assocLookup (reg2.values (keyOf registryType)) entryName = none
        ∧ (∀ n, n ≠ entryName →
            assocLookup (reg2.values (keyOf registryType)) n =
              assocLookup (reg.values (keyOf registryType)) n)
        ∧ (∀ k, k ≠ keyOf registryType → reg2.values k = reg.values k))
    ∧ (∀ (entryName : String) (registryType : StartupRegistryType) (e : GoError)
        (reg2 : Registry),
      RemoveStartupEntry env reg entryName registryType = (some e, reg2) → reg2 = reg) := by
  refine ⟨fun entry registryType reg2 fullPath habs hadd => ?_,
    fun entryName registryType reg2 hrem => ?_,
    fun entryName registryType e reg2 hrem =>
      removeStartupEntry_err_values env reg entryName registryType e reg2 hrem⟩
  · have hv := addStartupEntry_ok_values env reg entry registryType reg2 fullPath habs hadd
    rw [hv]
    refine ⟨by simp [assocLookup_mapInsert_self], fun n hn => ?_, fun k hk => ?_⟩
    · simp [assocLookup_mapInsert_other _ _ _ _ (Ne.symm hn)]
    · simp [hk]
  · have hv := removeStartupEntry_ok_values env reg entryName registryType reg2 hrem
    rw [hv]
    refine ⟨by simp [assocLookup_deleteAll_self], fun n hn => ?_, fun k hk => ?_⟩
    · simp [assocLookup_deleteAll_other _ _ _ hn]
    · simp [hk]

/-- C9 witness: adding a new entry over a populated key stores the new value,
leaves the existing value under the same key unchanged, and leaves a
different key unchanged. -/
theorem addRemove_frame_witness :
    assocLookup
        (((AddStartupEntry envAbsOk regMix ⟨"New", "app.exe"⟩ CurrentUserRun).2).values
          (keyOf CurrentUserRun)) "New" = some (RegData.str ("C:\\abs\\app.exe"))
    ∧ assocLookup
        (((AddStartupEntry envAbsOk regMix ⟨"New", "app.exe"⟩ CurrentUserRun).2).values
          (keyOf CurrentUserRun)) "A" =
        assocLookup (regMix.values (keyOf CurrentUserRun)) "A"
    ∧ ((AddStartupEntry envAbsOk regMix ⟨"New", "app.exe"⟩ CurrentUserRun).2).values
        (RegRoot.LOCAL_MACHINE, "SOFTWARE\\Microsoft\\Windows\\CurrentVersion\\Run") =
        regMix.values
          (RegRoot.LOCAL_MACHINE, "SOFTWARE\\Microsoft\\Windows\\CurrentVersion\\Run") := by
  have h := (addRemove_frame envAbsOk regMix).1 ⟨"New", "app.exe"⟩ CurrentUserRun
    (AddStartupEntry envAbsOk regMix ⟨"New", "app.exe"⟩ CurrentUserRun).2
    ("C:\\abs\\app.exe") rfl rfl
  exact ⟨h.1, h.2.1 "A" (by decide), h.2.2 _ (by decide)⟩

theorem buildEntries_lookup_ok (reg : Registry) (k : KeyId) (n v : String)
    (hv : getStringValue reg k n = Except.ok v) :
    ∀ (names : List String) (acc : List (String × String)),
      (n ∈ names ∨ assocLookup acc n = some v) →
      assocLookup (buildEntries reg k names acc) n = some v := by
  intro names
  induction names with
  | nil =>
    intro acc h
    rcases h with h | h
    · cases h
    · simpa [buildEntries] using h
  | cons name rest ih =>
    intro acc h
    by_cases he : name = n
    · subst he
      have hstep : buildEntries reg k (name :: rest) acc =
          buildEntries reg k rest (mapInsert acc name v) := by
        simp [buildEntries, hv]
      rw [hstep]
      exact ih _ (Or.inr (assocLookup_mapInsert_self _ _ _))
    · cases hg : getStringValue reg k name with
      | ok v2 =>
        have hstep : buildEntries reg k (name :: rest) acc =
            buildEntries reg k rest (mapInsert acc name v2) := by
          simp [buildEntries, hg]
        rw [hstep]
        rcases h with h | h
        · rcases List.mem_cons.mp h with h1 | h1
          · exact absurd h1.symm he
          · exact ih _ (Or.inl h1)
        · refine ih _ (Or.inr ?_)
          rw [assocLookup_mapInsert_other _ _ _ _ he]
          exact h
      | error msg =>
        have hstep : buildEntries reg k (name :: rest) acc = buildEntries reg k rest acc := by
          simp [buildEntries, hg]
        rw [hstep]
        rcases h with h | h
        · rcases List.mem_cons.mp h with h1 | h1
          · exact absurd h1.symm he
          · exact ih _ (Or.inl h1)
        · exact ih _ (Or.inr h)

theorem buildEntries_lookup_err (reg : Registry) (k : KeyId) (n : String)
    (hv : ∀ v, ¬ getStringValue reg k n = Except.ok v) :
    ∀ (names : List String) (acc : List (String × String)),
      assocLookup acc n = none →
      assocLookup (buildEntries reg k names acc) n = none := by
  intro names
  induction names with
  | nil =>
    intro acc h
    simpa [buildEntries] using h
  | cons name rest ih =>
    intro acc h
    cases hg : getStringValue reg k name with
    | ok v2 =>
      have he : name ≠ n := by
        intro hh
        exact hv v2 (hh ▸ hg)
      have hstep : buildEntries reg k (name :: rest) acc =
          buildEntries reg k rest (mapInsert acc name v2) := by
        simp [buildEntries, hg]
      rw [hstep]
      refine ih _ ?_
      rw [assocLookup_mapInsert_other _ _ _ _ he]
      exact h
    | error msg =>
      have hstep : buildEntries reg k (name :: rest) acc = buildEntries reg k rest acc := by
        simp [buildEntries, hg]
      rw [hstep]
      exact ih _ h

/-- C2: for every entry accepted by a successful AddStartupEntry, a subsequent
successful ListStartupEntries on the same scope returns a mapping that
contains the entry's name mapped to the normalized absolute path of its
command. -/
theorem addThenList (env : Env) (reg : Registry) (entry : StartupEntry)
    (registryType : StartupRegistryType) (fullPath : String)
    (m : List (String × String))
    (habs : env.abs entry.Command = Except.ok fullPath)
    (hadd : (AddStartupEntry env reg entry registryType).1 = none)
    (hlist : ListStartupEntries env (AddStartupEntry env reg entry registryType).2
        registryType = Except.ok m) :
    assocLookup m entry.Name = some fullPath := by
  have hpair : AddStartupEntry env reg entry registryType =
      (none, (AddStartupEntry env reg entry registryType).2) := by
    rw [← hadd]
  have hv := addStartupEntry_ok_values env reg entry registryType
    (AddStartupEntry env reg entry registryType).2 fullPath habs hpair
  set reg2 := (AddStartupEntry env reg entry registryType).2 with hreg2
  cases ho : env.openKeyErr ((getRegistryPath registryType).2,
      (getRegistryPath registryType).1) Access.QUERY_VALUE with
  | some msg => simp [ListStartupEntries, ho] at hlist
  | none =>
    cases hr : env.readNamesErr ((getRegistryPath registryType).2,
        (getRegistryPath registryType).1) with
    | some msg => simp [ListStartupEntries, ho, hr] at hlist
    | none =>
      simp [ListStartupEntries, ho, hr] at hlist
      have hkey : reg2.values ((getRegistryPath registryType).2,
          (getRegistryPath registryType).1) =
          mapInsert (reg.values (keyOf registryType)) entry.Name (RegData.str fullPath) := by
        rw [hv]
        simp [keyOf]
      have hget : getStringValue reg2 ((getRegistryPath registryType).2,
          (getRegistryPath registryType).1) entry.Name = Except.ok fullPath := by
        simp [getStringValue, hkey, assocLookup_mapInsert_self]
      have hmem : entry.Name ∈ (reg2.values ((getRegistryPath registryType).2,
          (getRegistryPath registryType).1)).map Prod.fst := by
        rw [hkey]
        exact mem_map_fst_mapInsert _ _ _
      rw [← hlist]
      exact buildEntries_lookup_ok reg2 _ entry.Name fullPath hget _ [] (Or.inl hmem)

/-- C2 witness: a concrete add on the empty registry followed by a list on the
same scope yields a mapping sending the entry name to the normalized path. -/
theorem addThenList_witness :
    assocLookup [("App", "C:\\abs\\run.exe")] "App" = some ("C:\\abs\\run.exe") :=
  addThenList envAbsOk regEmpty ⟨"App", "run.exe"⟩ CurrentUserRun
    ("C:\\abs\\run.exe") [("App", "C:\\abs\\run.exe")] rfl rfl rfl

/-- C8: for every scope whose key opens for reading and whose value-name
enumeration succeeds, the listing succeeds, every enumerated value whose
string read succeeds appears in the result, and every value whose string
read fails is omitted from the result. -/
theorem listStartupEntries_skipUnreadable (env : Env) (reg : Registry)
    (registryType : StartupRegistryType)
    (hopen : env.openKeyErr (keyOf registryType) Access.QUERY_VALUE = none)
    (henum : env.readNamesErr (keyOf registryType) = none) :
    ListStartupEntries env reg registryType =
      Except.ok (buildEntries reg (keyOf registryType)
        ((reg.values (keyOf registryType)).map Prod.fst) [])
    ∧ (∀ n v, getStringValue reg (keyOf registryType) n = Except.ok v →
        n ∈ (reg.values (keyOf registryType)).map Prod.fst →
        assocLookup (buildEntries reg (keyOf registryType)
          ((reg.values (keyOf registryType)).map Prod.fst) []) n = some v)
    ∧ (∀ n msg, getStringValue reg (keyOf registryType) n = Except.error msg →
        assocLookup (buildEntries reg (keyOf registryType)
          ((reg.values (keyOf registryType)).map Prod.fst) []) n = none) := by
  simp only [keyOf] at hopen henum
  refine ⟨by simp [ListStartupEntries, keyOf, hopen, henum], fun n v hget hmem => ?_,
    fun n msg hget => ?_⟩
  · exact buildEntries_lookup_ok reg _ n v hget _ [] (Or.inl (by simpa [keyOf] using hmem))
  · refine buildEntries_lookup_err reg _ n (fun v hh => ?_) _ [] rfl
    rw [hget] at hh
    cases hh

/-- C8 witness: on a key holding one string value and one non-string value,
the listing succeeds, keeps the readable value and omits the unreadable
one. -/
theorem listStartupEntries_skipUnreadable_witness :
    assocLookup (buildEntries regMix (keyOf CurrentUserRun)
      ((regMix.values (keyOf CurrentUserRun)).map Prod.fst) []) "A" = some ("cmdA")
    ∧ assocLookup (buildEntries regMix (keyOf CurrentUserRun)
      ((regMix.values (keyOf CurrentUserRun)).map Prod.fst) []) "B" = none :=
  ⟨(listStartupEntries_skipUnreadable envNoErr regMix CurrentUserRun rfl rfl).2.1 "A" ("cmdA")
      rfl (by decide),
   (listStartupEntries_skipUnreadable envNoErr regMix CurrentUserRun rfl rfl).2.2 "B"
      ("unexpected value type") rfl⟩

theorem buildAll_lookup_not_mem (env : Env) (reg : Registry) (t : StartupRegistryType) :
    ∀ (ts : List StartupRegistryType) (acc : List (StartupRegistryType × List (String × String))),
      t ∉ ts → assocLookup (buildAll env reg ts acc) t = assocLookup acc t := by
  intro ts
  induction ts with
  | nil =>
    intro acc h
    simp [buildAll]
  | cons s rest ih =>
    intro acc h
    have h1 : s ≠ t := fun hh => h (by simp [hh])
    have h2 : t ∉ rest := fun hh => h (List.mem_cons_of_mem _ hh)
    cases hg : ListStartupEntries env reg s with
    | ok entries =>
      by_cases hlen : entries.length > 0
      · have hstep : buildAll env reg (s :: rest) acc =
            buildAll env reg rest (mapInsert acc s entries) := by
          simp [buildAll, hg, hlen]
        rw [hstep, ih _ h2, assocLookup_mapInsert_other _ _ _ _ h1]
      · have hstep : buildAll env reg (s :: rest) acc = buildAll env reg rest acc := by
          simp [buildAll, hg, hlen]
        rw [hstep, ih _ h2]
    | error msg =>
      have hstep : buildAll env reg (s :: rest) acc = buildAll env reg rest acc := by
        simp [buildAll, hg]
      rw [hstep, ih _ h2]

theorem buildAll_lookup_mem (env : Env) (reg : Registry) (t : StartupRegistryType) :
    ∀ (ts : List StartupRegistryType) (acc : List (StartupRegistryType × List (String × String))),
      List.Nodup ts → t ∈ ts →
      assocLookup (buildAll env reg ts acc) t =
        match ListStartupEntries env reg t with
        | Except.ok m => if m.length > 0 then some m else assocLookup acc t
        | Except.error _ => assocLookup acc t := by
  intro ts
  induction ts with
  | nil =>
    intro acc hnd hmem
    cases hmem
  | cons s rest ih =>
    intro acc hnd hmem
    have hnds : s ∉ rest := (List.nodup_cons.mp hnd).1
    have hndr : List.Nodup rest := (List.nodup_cons.mp hnd).2
    by_cases hts : t = s
    · subst hts
      have hnotmem : t ∉ rest := hnds
      cases hg : ListStartupEntries env reg t with
      | ok entries =>
        by_cases hlen : entries.length > 0
        · have hstep : buildAll env reg (t :: rest) acc =
              buildAll env reg rest (mapInsert acc t entries) := by
            simp [buildAll, hg, hlen]
          rw [hstep, buildAll_lookup_not_mem env reg t _ _ hnotmem,
            assocLookup_mapInsert_self]
          simp [hlen]
        · have hstep : buildAll env reg (t :: rest) acc = buildAll env reg rest acc := by
            simp [buildAll, hg, hlen]
          rw [hstep, buildAll_lookup_not_mem env reg t _ _ hnotmem]
          simp [hlen]
      | error msg =>
        have hstep : buildAll env reg (t :: rest) acc = buildAll env reg rest acc := by
          simp [buildAll, hg]
        rw [hstep, buildAll_lookup_not_mem env reg t _ _ hnotmem]
    · have hmemr : t ∈ rest := by
        rcases List.mem_cons.mp hmem with h1 | h1
        · exact absurd h1 hts
        · exact h1
      have hst : s ≠ t := fun hh => hts hh.symm
      cases hg : ListStartupEntries env reg s with
      | ok entries =>
        by_cases hlen : entries.length > 0
        · have hstep : buildAll env reg (s :: rest) acc =
              buildAll env reg rest (mapInsert acc s entries) := by
            simp [buildAll, hg, hlen]
          have hacc : assocLookup (mapInsert acc s entries) t = assocLookup acc t :=
            assocLookup_mapInsert_other _ _ _ _ hst
          rw [hstep, ih _ hndr hmemr]
          cases hgt : ListStartupEntries env reg t with
          | ok mt =>
            by_cases hlt : mt.length > 0 <;> simp [hlt, hacc]
          | error m2 => simp [hacc]
        · have hstep : buildAll env reg (s :: rest) acc = buildAll env reg rest acc := by
            simp [buildAll, hg, hlen]
          rw [hstep, ih _ hndr hmemr]
      | error msg =>
        have hstep : buildAll env reg (s :: rest) acc = buildAll env reg rest acc := by
          simp [buildAll, hg]
        rw [hstep, ih _ hndr hmemr]

/-- C7: ListAllStartupEntries never surfaces an error, and for each of the
four scopes its result mapping contains that scope exactly when the scope's
own listing returned no error and produced at least one entry. -/
theorem listAllStartupEntries_spec (env : Env) (reg : Registry)
    (t : StartupRegistryType)
    (ht : t ∈ [CurrentUserRun, CurrentUserRunOnce, AllUsersRun, AllUsersRunOnce]) :
    (ListAllStartupEntries env reg).2 = none
    ∧ ∀ m, (assocLookup (ListAllStartupEntries env reg).1 t = some m ↔
        (ListStartupEntries env reg t = Except.ok m ∧ m ≠ [])) := by
  refine ⟨rfl, fun m => ?_⟩
  have hnd : List.Nodup [CurrentUserRun, CurrentUserRunOnce, AllUsersRun, AllUsersRunOnce] := by
    decide
  have h1 : (ListAllStartupEntries env reg).1 =
      buildAll env reg [CurrentUserRun, CurrentUserRunOnce, AllUsersRun, AllUsersRunOnce] [] :=
    rfl
  rw [h1, buildAll_lookup_mem env reg t _ [] hnd ht]
  cases hgt : ListStartupEntries env reg t with
  | ok mt =>
    by_cases hlt : mt.length > 0
    · change (if mt.length > 0 then some mt else assocLookup [] t) = some m ↔ _
      rw [if_pos hlt]
      simp only [Option.some.injEq, Except.ok.injEq]
      constructor
      · rintro rfl
        exact ⟨rfl, List.length_pos.mp hlt⟩
      · rintro ⟨rfl, -⟩
        rfl
    · have hmt : mt = [] := by
        rw [← List.length_eq_zero]
        omega
      subst hmt
      change (if ([] : List (String × String)).length > 0 then
          some ([] : List (String × String)) else assocLookup [] t) = some m ↔ _
      rw [if_neg hlt]
      simp only [assocLookup]
      constructor
      · intro h
        exact Option.noConfusion h
      · rintro ⟨h, hne⟩
        exact absurd (Except.ok.inj h).symm hne
  | error msg =>
    simp [assocLookup]

/-- C7 witness: with one scope holding one readable entry, the aggregate
surfaces no error and contains that scope mapped to its entries. -/
theorem listAllStartupEntries_spec_witness :
    (ListAllStartupEntries envNoErr regMix).2 = none
    ∧ (assocLookup (ListAllStartupEntries envNoErr regMix).1 CurrentUserRun =
        some [("A", "cmdA")] ↔
      (ListStartupEntries envNoErr regMix CurrentUserRun = Except.ok [("A", "cmdA")]
        ∧ [("A", "cmdA")] ≠ ([] : List (String × String)))) :=
  ⟨(listAllStartupEntries_spec envNoErr regMix CurrentUserRun (List.mem_cons_self _ _)).1,
   (listAllStartupEntries_spec envNoErr regMix CurrentUserRun
      (List.mem_cons_self _ _)).2 [("A", "cmdA")]⟩
